import Mathlib

/-!
Shallow embedding of `src/mongo/db/storage/wiredtiger/wiredtiger_util.cpp`.

The WiredTiger engine itself (cursor open/seek/advance/close, the config
string tokenizer, `wiredtiger_strerror`) is an external collaborator of this
translation unit; following the spec's component boundaries it is modelled by
explicit environment values: each engine call's return code and payload is a
field of an environment structure, and the engine's config parse of a raw
metadata string is presented in already-tokenized form (`TopCfg`).  The code
of `wiredtiger_util.cpp` is translated statement by statement on top of that
environment.  Functions that can leave through the `WriteConflictException`
throw or through a `fassert` abort return a `WtResult`/`TranslateOutcome`
value with distinguished constructors for those escapes, and the functions
that open a cursor additionally return the list of cursor open/close events
of the run, so that cursor hygiene is provable.
-/

/-- The error codes of `mongo::ErrorCodes` used by this translation unit. -/
inductive ErrorCodes where
  | OK
  | NoSuchKey
  | CursorNotFound
  | BadValue
  | UnknownError
  | FailedToParse
  | UnsupportedFormat
  | DuplicateKey
  deriving Repr, DecidableEq

/-- `mongo::Status`: an error code plus a reason string. -/
structure Status where
  code : ErrorCodes
  reason : String
  deriving Repr, DecidableEq

/-- `Status::OK()`. -/
def Status.OK : Status := ⟨ErrorCodes.OK, ""⟩

/-! WiredTiger's public sentinel return codes (from `wiredtiger.h`) and the
POSIX `EINVAL` value used by the translator. -/

def WT_ROLLBACK : Int := -31800
def WT_DUPLICATE_KEY : Int := -31801
def WT_ERROR : Int := -31802
def WT_NOTFOUND : Int := -31803
def WT_PANIC : Int := -31804
def EINVAL : Int := 22

/-- Engine-defined statistic identifier (`WT_STAT_DSRC_BLOCK_SIZE`); its
numeric value is engine-internal and never inspected by this code, which only
passes it through to the cursor seek. -/
def WT_STAT_DSRC_BLOCK_SIZE : Int := 2023

/-- What a call of `wtRCToStatus_slow` can do: return a `Status` value, throw
`WriteConflictException`, or abort through `fassert`. -/
inductive TranslateOutcome where
  | ret (st : Status)
  | writeConflict
  | fassertFailed (n : Nat)
  deriving Repr, DecidableEq

/-- Is the outcome a normal `return` of a `Status` value? -/
def TranslateOutcome.isRet : TranslateOutcome → Bool
  | .ret _ => true
  | _ => false

/-- `wtRCToStatus_slow(int retCode, const char* prefix)` (lines 53-74).
`strerror` models the engine's `wiredtiger_strerror`; `pfx` the nullable
`const char* prefix`. -/
def wtRCToStatus_slow (strerror : Int → String) (retCode : Int) (pfx : Option String) :
    TranslateOutcome :=
  if retCode = 0 then .ret Status.OK
  else if retCode = WT_ROLLBACK then .writeConflict
  else if retCode = WT_PANIC then .fassertFailed 28559
  else
    let s := (match pfx with
      | some p => p ++ " "
      | none => "") ++ toString retCode ++ ": " ++ strerror retCode
    if retCode = EINVAL then .ret ⟨ErrorCodes.BadValue, s⟩
    else .ret ⟨ErrorCodes.UnknownError, s⟩

/-- `wtRCToStatus(ret)`: the header's wrapper that calls `wtRCToStatus_slow`
with a null prefix. -/
def wtRCToStatus (strerror : Int → String) (retCode : Int) : TranslateOutcome :=
  wtRCToStatus_slow strerror retCode none

/-! ## The engine's config items (`WT_CONFIG_ITEM`)

`WiredTigerConfigParser` wraps the engine's config tokenizer, an external
collaborator: a parse of a metadata string is presented as the list of
key/item pairs the tokenizer would yield, in order.  The code under test
never recurses deeper than one struct level, so a top-level item
(`WtStructItem`) carries its payload's pairs of scalar items, together with
the terminal return code of iterating them (`WT_NOTFOUND` for a clean end of
stream, any other code for a malformed-grammar stop). -/

inductive WtItemType where
  | ITEM_STRING
  | ITEM_BOOL
  | ITEM_ID
  | ITEM_NUM
  | ITEM_STRUCT
  deriving Repr, DecidableEq

/-- A scalar `WT_CONFIG_ITEM`: the raw text (`str`, with `len = str.length`),
the numeric/boolean payload `val` and the item type. -/
structure WtConfigItem where
  str : String
  val : Int
  itype : WtItemType
  deriving Repr, DecidableEq

/-- A `WT_CONFIG_ITEM` found at the top level of a metadata string, carrying
the tokenized payload a nested `WiredTigerConfigParser` would iterate. -/
structure WtStructItem where
  str : String
  val : Int
  itype : WtItemType
  entries : List (String × WtConfigItem)
  endCode : Int
  deriving Repr, DecidableEq

/-- The tokenized top level of a raw metadata string. -/
abbrev TopCfg := List (String × WtStructItem)

/-- `WiredTigerConfigParser::get(key, &item)` on a top-level parser: `none`
models the nonzero (`WT_NOTFOUND`) return. -/
def cfgGetTop (cfg : TopCfg) (key : String) : Option WtStructItem :=
  (cfg.find? (fun kv => kv.1 == key)).map Prod.snd

/-- `WiredTigerConfigParser::get(key, &item)` on a nested parser. -/
def cfgGet (entries : List (String × WtConfigItem)) (key : String) : Option WtConfigItem :=
  (entries.find? (fun kv => kv.1 == key)).map Prod.snd

/-- What a call of one of the `Status`-returning operations can do: succeed
with a value, return an error `Status`, leak the `WriteConflictException`
thrown by `wtRCToStatus`, or abort through `fassert`/`invariant`. -/
inductive WtResult (α : Type) where
  | ok (a : α)
  | err (st : Status)
  | writeConflict
  | fassertFailed (n : Nat)
  deriving Repr, DecidableEq

/-- Did the run abort through `fassert`/`invariant` (a process abort: the
operation neither returns nor unwinds)? -/
def WtResult.isFassert {α : Type} : WtResult α → Bool
  | .fassertFailed _ => true
  | _ => false

/-- One BSON value as produced through `BSONObjBuilder` by this code. -/
inductive BSONValue where
  | bool (b : Bool)
  | int (n : Int)
  | str (s : String)
  | doc (fields : List (String × BSONValue))

/-- Cursor events recorded by the instrumented operations. -/
inductive CursorEvent where
  | opened
  | closed
  deriving Repr, DecidableEq

/-- Every cursor opened during the run was closed again. -/
def closesAllCursors (t : List CursorEvent) : Prop :=
  t.count CursorEvent.opened = t.count CursorEvent.closed

/-! ## `WiredTigerUtil::getMetadata` (lines 76-97)

The environment gives the engine's answers: the metadata cursor's
`search` return code, the `get_value` return code and the value it yields.
The `WiredTigerCursor curwrap` RAII wrapper opens the cursor on entry and
closes it whenever the scope is left by `return` or by an unwinding throw; a
`fassert` abort does not unwind. -/

structure MetaEnv where
  uri : String
  searchRet : Int
  getValueRet : Int
  metadata : String
  strerror : Int → String

def getMetadata (e : MetaEnv) : WtResult String × List CursorEvent :=
  if e.searchRet = WT_NOTFOUND then
    (.err ⟨ErrorCodes.NoSuchKey, "Unable to find metadata for " ++ e.uri⟩,
      [CursorEvent.opened, CursorEvent.closed])
  else if e.searchRet ≠ 0 then
    match wtRCToStatus e.strerror e.searchRet with
    | .ret st => (.err st, [CursorEvent.opened, CursorEvent.closed])
    | .writeConflict => (.writeConflict, [CursorEvent.opened, CursorEvent.closed])
    | .fassertFailed n => (.fassertFailed n, [CursorEvent.opened])
  else if e.getValueRet ≠ 0 then
    match wtRCToStatus e.strerror e.getValueRet with
    | .ret st => (.err st, [CursorEvent.opened, CursorEvent.closed])
    | .writeConflict => (.writeConflict, [CursorEvent.opened, CursorEvent.closed])
    | .fassertFailed n => (.fassertFailed n, [CursorEvent.opened])
  else (.ok e.metadata, [CursorEvent.opened, CursorEvent.closed])

/-! ## `WiredTigerUtil::getApplicationMetadata` (lines 99-151) -/

/-- The `DuplicateKey` message of lines 128-130. -/
def dupKeyMessage (key : String) : String :=
  "app_metadata must not contain duplicate keys. " ++
    "Found multiple instances of key '" ++ key ++ "'."

/-- The coercion of one value item (the `switch` of lines 134-144):
`appendBool` for BOOL, `appendIntOrLL` for NUM, the raw text for the rest. -/
def coerceConfigValue (v : WtConfigItem) : BSONValue :=
  match v.itype with
  | .ITEM_BOOL => .bool (v.val != 0)
  | .ITEM_NUM => .int v.val
  | _ => .str v.str

/-- The `while ((ret = parser.next(&keyItem, &valueItem)) == 0)` loop of
lines 125-145: `keysSeen` is the `unordered_set` of keys already appended,
`acc` the fields appended to the builder so far. -/
def appMetaLoop : List (String × WtConfigItem) → List String → List (String × BSONValue) →
    Except Status (List (String × BSONValue))
  | [], _, acc => Except.ok acc
  | (key, v) :: rest, keysSeen, acc =>
    if key ∈ keysSeen then
      Except.error ⟨ErrorCodes.DuplicateKey, dupKeyMessage key⟩
    else
      appMetaLoop rest (key :: keysSeen) (acc ++ [(key, coerceConfigValue v)])

/-- `getApplicationMetadata(opCtx, uri, bob)`: `fetched` is the outcome of the
`getMetadata` call (line 102), already tokenized by the engine's parser; the
returned fields are the ones appended to `bob`.

Source lines 108-110 read
`if (topParser.get("app_metadata", &appMetadata) != 0) { Status::OK(); }`:
the `Status::OK()` value is discarded (there is no `return`), so on the
not-found path control falls through with the local `WT_CONFIG_ITEM
appMetadata` still holding its indeterminate initial contents; the parameter
`junk` stands for that indeterminate stack value. -/
def getApplicationMetadata (strerror : Int → String) (junk : WtStructItem)
    (fetched : WtResult TopCfg) : WtResult (List (String × BSONValue)) :=
  match fetched with
  | .err st => .err st
  | .writeConflict => .writeConflict
  | .fassertFailed n => .fassertFailed n
  | .ok top =>
    let appMetadata := (cfgGetTop top "app_metadata").getD junk
    if appMetadata.str.length = 0 then
      .ok []
    else if appMetadata.itype ≠ WtItemType.ITEM_STRUCT then
      .err ⟨ErrorCodes.FailedToParse,
        "app_metadata must be a nested struct. Actual value: " ++ appMetadata.str⟩
    else
      match appMetaLoop appMetadata.entries [] [] with
      | .error st => .err st
      | .ok fields =>
        if appMetadata.endCode ≠ WT_NOTFOUND then
          match wtRCToStatus strerror appMetadata.endCode with
          | .ret st => if st.code = ErrorCodes.OK then .ok fields else .err st
          | .writeConflict => .writeConflict
          | .fassertFailed n => .fassertFailed n
        else .ok fields

/-! ## `WiredTigerUtil::checkApplicationMetadataFormatVersion` (lines 163-207) -/

def checkApplicationMetadataFormatVersion (uri : String) (fetched : WtResult TopCfg)
    (minimumVersion maximumVersion : Int) : WtResult Unit :=
  match fetched with
  | .err st =>
    if st.code = ErrorCodes.NoSuchKey then .err st
    else .fassertFailed 0
  | .writeConflict => .writeConflict
  | .fassertFailed n => .fassertFailed n
  | .ok top =>
    match cfgGetTop top "app_metadata" with
    | none =>
      .err ⟨ErrorCodes.UnsupportedFormat,
        "application metadata for " ++ uri ++ " is missing "⟩
    | some metadata =>
      match (match cfgGet metadata.entries "formatVersion" with
        | none => Except.ok (1 : Int)
        | some versionItem =>
          if versionItem.itype = WtItemType.ITEM_NUM then Except.ok versionItem.val
          else Except.error (⟨ErrorCodes.UnsupportedFormat,
            "'formatVersion' in application metadata for " ++ uri ++
              " must be a number. Current value: " ++ versionItem.str⟩ : Status)) with
      | .error st => .err st
      | .ok version =>
        if version < minimumVersion ∨ version > maximumVersion then
          .err ⟨ErrorCodes.UnsupportedFormat,
            "Application metadata for " ++ uri ++ " has unsupported format version " ++
              toString version⟩
        else .ok ()

/-- Transcribes the claim's words, for comparison with the source: the
effective version is the value of a Number-typed `formatVersion` entry if
present, exactly 1 if `formatVersion` is absent, and undefined (`none`) for a
present entry of any other type. -/
def effectiveFormatVersion (metadata : WtStructItem) : Option Int :=
  match cfgGet metadata.entries "formatVersion" with
  | none => some 1
  | some versionItem =>
    if versionItem.itype = WtItemType.ITEM_NUM then some versionItem.val else none

/-! ## `WiredTigerUtil::getStatisticsValue` (lines 210-243)

The environment gives the engine's answers for the one cursor the function
opens: the `open_cursor`, `search` and `get_value` return codes and the
unsigned 64-bit counter the cursor yields.  `ON_BLOCK_EXIT(cursor->close,
cursor)` closes the cursor on every path once the open has succeeded. -/

structure CursorResponses where
  openRet : Int
  searchRet : Int
  getValueRet : Int
  value : Nat
  strerror : Int → String

structure StatEnv where
  uri : String
  config : String
  statisticsKey : Int
  resp : CursorResponses

def getStatisticsValue (e : StatEnv) : Except Status Nat × List CursorEvent :=
  if e.resp.openRet ≠ 0 then
    (Except.error ⟨ErrorCodes.CursorNotFound,
      "unable to open cursor at URI " ++ e.uri ++ ". reason: " ++
        e.resp.strerror e.resp.openRet⟩, [])
  else if e.resp.searchRet ≠ 0 then
    (Except.error ⟨ErrorCodes.NoSuchKey,
      "unable to find key " ++ toString e.statisticsKey ++ " at URI " ++ e.uri ++
        ". reason: " ++ e.resp.strerror e.resp.searchRet⟩,
      [CursorEvent.opened, CursorEvent.closed])
  else if e.resp.getValueRet ≠ 0 then
    (Except.error ⟨ErrorCodes.BadValue,
      "unable to get value for key " ++ toString e.statisticsKey ++ " at URI " ++ e.uri ++
        ". reason: " ++ e.resp.strerror e.resp.getValueRet⟩,
      [CursorEvent.opened, CursorEvent.closed])
  else (Except.ok e.resp.value, [CursorEvent.opened, CursorEvent.closed])

/-- Modelled from the spec: `_castStatisticsValue<long long>` (declared in the
header `wiredtiger_util.h`, which is not under src/): "Cast `value` (unsigned
64-bit) to a signed 64-bit number (wrap/reinterpret, not saturate ... the cast
is a direct bit-width narrowing with no bounds check)". -/
def castStatisticsValue (v : Nat) : Int :=
  if v % 2 ^ 64 < 2 ^ 63 then ((v % 2 ^ 64 : Nat) : Int)
  else ((v % 2 ^ 64 : Nat) : Int) - 2 ^ 64

/-- Modelled from the spec: `getStatisticsValueAs<int64_t>` (template declared
in the header, not under src/; the spec's `getNarrowedStatistic<N>`): "same as
above but casts the result into a narrower signed/unsigned integer type". -/
def getStatisticsValueAs_int64 (e : StatEnv) : Except Status Int :=
  match (getStatisticsValue e).1 with
  | Except.ok v => Except.ok (castStatisticsValue v)
  | Except.error st => Except.error st

/-- What `getIdentSize` can do: return an `int64_t`, or escape through the
`uassertStatusOK` assertion failure (which never returns a value). -/
inductive IdentSizeOutcome where
  | ret (v : Int)
  | assertionFailed (st : Status)
  deriving Repr, DecidableEq

/-- `WiredTigerUtil::getIdentSize` (lines 245-259): a fixed statistics URI
(`"statistics:" + uri`), fast statistics config and the block-size statistic
key; `CursorNotFound` is absorbed into 0, any other failure escapes through
`uassertStatusOK`. -/
def getIdentSize (uri : String) (r : CursorResponses) : IdentSizeOutcome :=
  match getStatisticsValueAs_int64
      ⟨"statistics:" ++ uri, "statistics=(fast)", WT_STAT_DSRC_BLOCK_SIZE, r⟩ with
  | Except.error st =>
    if st.code = ErrorCodes.CursorNotFound then .ret 0
    else .assertionFailed st
  | Except.ok v => .ret v

/-! ## `WiredTigerUtil::exportTableToBSON` (lines 262-326)

The environment gives the `open_cursor` return code and the stream of rows
the `while (c->next(c) == 0 && c->get_value(...) == 0)` loop yields: the rows
successfully read before the first nonzero advance/read code, each a
(description, unsigned 64-bit value) pair. -/

/-- `key.find(c)` followed by `key.substr(0, idx)` / `key.substr(idx + 1)`:
the text before and after the first occurrence of `c`, or `none` when `c` does
not occur. -/
def splitAtFirst (c : Char) : List Char → Option (List Char × List Char)
  | [] => none
  | x :: xs =>
    if x = c then some ([], xs)
    else
      match splitAtFirst c xs with
      | some (p, s) => some (x :: p, s)
      | none => none

/-- The grouping-key derivation of lines 288-304: split at the first `':'`;
else at the first `' '`; else the whole description with the literal suffix
`"num"`.  (The source assigns the `':'` split twice — once in each of the two
`if` statements — with the same result.) -/
def statKeySplit (key : List Char) : List Char × List Char :=
  match splitAtFirst ':' key with
  | some (p, s) => (p, s)
  | none =>
    match splitAtFirst ' ' key with
    | some (p, s) => (p, s)
    | none => (key, "num".data)

/-- Modelled from the spec: `mongoutils::str::ltrim` (declared in
`mongo/util/mongoutils/str.h`, not under src/): "trim leading whitespace from
`suffix`". -/
def ltrim (cs : List Char) : List Char := cs.dropWhile (fun c => c.isWhitespace)

/-- `std::string`'s `operator<` on one character: byte order, which for UTF-8
encoded text agrees with code-point order. -/
def charLt (a b : Char) : Bool := a.toNat < b.toNat

/-- `std::string`'s `operator<`: lexicographic comparison. -/
def charListLt : List Char → List Char → Bool
  | [], [] => false
  | [], _ :: _ => true
  | _ :: _, [] => false
  | a :: as, b :: bs =>
    if charLt a b then true
    else if charLt b a then false
    else charListLt as bs

def strLt (a b : String) : Bool := charListLt a.data b.data

/-- `subs[prefix.toString()]` on the `std::map<string, BSONObjBuilder*>`
followed by `sub->appendNumber(suffix, v)`: the map is kept as an association
list sorted by key (a `std::map` iterates its keys in `operator<` order), and
the sub-builder's fields in append order. -/
def subsInsert (k : String) (v : String × Int) :
    List (String × List (String × Int)) → List (String × List (String × Int))
  | [] => [(k, [v])]
  | (k', vs) :: rest =>
    if strLt k k' then (k, [v]) :: (k', vs) :: rest
    else if strLt k' k then (k', vs) :: subsInsert k v rest
    else (k', vs ++ [v]) :: rest

/-- The row loop of lines 282-317: `tops` are the fields appended directly to
`bob` inside the loop (empty-prefix rows), `subs` the per-prefix
sub-builders. -/
def exportLoop : List (String × Nat) → List (String × BSONValue) →
    List (String × List (String × Int)) →
    List (String × BSONValue) × List (String × List (String × Int))
  | [], tops, subs => (tops, subs)
  | (desc, value) :: rest, tops, subs =>
    let ps := statKeySplit desc.data
    let v := castStatisticsValue value
    if ps.1.isEmpty then
      exportLoop rest (tops ++ [(desc, BSONValue.int v)]) subs
    else
      exportLoop rest tops (subsInsert (String.mk ps.1) (String.mk (ltrim ps.2), v) subs)

structure ExportEnv where
  uri : String
  openRet : Int
  rows : List (String × Nat)
  strerror : Int → String

/-- `WiredTigerUtil::exportTableToBSON`: on a successful open the builder
receives the `"uri"` field, then the loop's direct appends, then — after the
loop — each sub-builder as a sub-document, in the `std::map`'s iteration
order. -/
def exportTableToBSON (e : ExportEnv) :
    Except Status (List (String × BSONValue)) × List CursorEvent :=
  if e.openRet ≠ 0 then
    (Except.error ⟨ErrorCodes.CursorNotFound,
      "unable to open cursor at URI " ++ e.uri ++ ". reason: " ++ e.strerror e.openRet⟩, [])
  else
    let r := exportLoop e.rows [] []
    (Except.ok (("uri", BSONValue.str e.uri) :: r.1 ++
        r.2.map (fun p => (p.1, BSONValue.doc (p.2.map (fun q => (q.1, BSONValue.int q.2)))))),
      [CursorEvent.opened, CursorEvent.closed])

/-- The keys of the sub-document-valued fields of a produced document, in
field order. -/
def subDocKeys (fields : List (String × BSONValue)) : List String :=
  fields.filterMap (fun kv =>
    match kv.2 with
    | BSONValue.doc _ => some kv.1
    | _ => none)

/-! ## Helper lemmas -/

theorem splitAtFirst_of_not_mem {c : Char} : ∀ {cs : List Char}, c ∉ cs →
    splitAtFirst c cs = none := by
  intro cs
  induction cs with
  | nil => intro _; rfl
  | cons x xs ih =>
    intro h
    rw [List.mem_cons, not_or] at h
    rw [splitAtFirst, if_neg (fun hxc => h.1 hxc.symm), ih h.2]

theorem splitAtFirst_append {c : Char} : ∀ {p : List Char} (s : List Char), c ∉ p →
    splitAtFirst c (p ++ c :: s) = some (p, s) := by
  intro p
  induction p with
  | nil => intro s _; simp [splitAtFirst]
  | cons x xs ih =>
    intro s h
    rw [List.mem_cons, not_or] at h
    rw [List.cons_append, splitAtFirst, if_neg (fun hxc => h.1 hxc.symm), ih s h.2]

theorem charLt_trans {a b c : Char} (h1 : charLt a b = true) (h2 : charLt b c = true) :
    charLt a c = true := by
  simp only [charLt, decide_eq_true_eq] at h1 h2 ⊢
  omega

theorem charLt_false_false {a b : Char} (h1 : charLt a b = false) (h2 : charLt b a = false) :
    a.toNat = b.toNat := by
  simp only [charLt, decide_eq_false_iff_not, Nat.not_lt] at h1 h2
  omega

theorem charLt_true_iff {a b : Char} : charLt a b = true ↔ a.toNat < b.toNat := by
  simp [charLt]

theorem charListLt_cons_lt {a b : Char} {as bs : List Char} (h : charLt a b = true) :
    charListLt (a :: as) (b :: bs) = true := by
  rw [charListLt, if_pos h]

theorem charListLt_cons_gt {a b : Char} {as bs : List Char} (h1 : charLt a b = false)
    (h2 : charLt b a = true) : charListLt (a :: as) (b :: bs) = false := by
  rw [charListLt, if_neg (by simp [h1]), if_pos h2]

theorem charListLt_cons_eq {a b : Char} {as bs : List Char} (h1 : charLt a b = false)
    (h2 : charLt b a = false) : charListLt (a :: as) (b :: bs) = charListLt as bs := by
  rw [charListLt, if_neg (by simp [h1]), if_neg (by simp [h2])]

theorem charListLt_trans : ∀ {x y z : List Char}, charListLt x y = true →
    charListLt y z = true → charListLt x z = true := by
  intro x
  induction x with
  | nil =>
    intro y z h1 h2
    cases y with
    | nil => exact h2
    | cons b bs =>
      cases z with
      | nil => exact absurd h2 (by rw [charListLt]; simp)
      | cons c cs => rfl
  | cons a as ih =>
    intro y z h1 h2
    cases y with
    | nil => exact absurd h1 (by rw [charListLt]; simp)
    | cons b bs =>
      cases z with
      | nil => exact absurd h2 (by rw [charListLt]; simp)
      | cons c cs =>
        cases hab : charLt a b with
        | true =>
          cases hbc : charLt b c with
          | true => exact charListLt_cons_lt (charLt_trans hab hbc)
          | false =>
            cases hcb : charLt c b with
            | true => rw [charListLt_cons_gt hbc hcb] at h2; exact absurd h2 (by simp)
            | false =>
              have heq := charLt_false_false hbc hcb
              refine charListLt_cons_lt ?_
              rw [charLt_true_iff] at hab ⊢
              omega
        | false =>
          cases hba : charLt b a with
          | true => rw [charListLt_cons_gt hab hba] at h1; exact absurd h1 (by simp)
          | false =>
            have heqab := charLt_false_false hab hba
            rw [charListLt_cons_eq hab hba] at h1
            cases hbc : charLt b c with
            | true =>
              refine charListLt_cons_lt ?_
              rw [charLt_true_iff] at hbc ⊢
              omega
            | false =>
              cases hcb : charLt c b with
              | true => rw [charListLt_cons_gt hbc hcb] at h2; exact absurd h2 (by simp)
              | false =>
                have heqbc := charLt_false_false hbc hcb
                rw [charListLt_cons_eq hbc hcb] at h2
                have hac : charLt a c = false := by
                  simp only [charLt, decide_eq_false_iff_not, Nat.not_lt]
                  omega
                have hca : charLt c a = false := by
                  simp only [charLt, decide_eq_false_iff_not, Nat.not_lt]
                  omega
                rw [charListLt_cons_eq hac hca]
                exact ih h1 h2

theorem strLt_trans {a b c : String} (h1 : strLt a b = true) (h2 : strLt b c = true) :
    strLt a c = true :=
  charListLt_trans h1 h2

theorem subsInsert_keys_mem {k : String} {v : String × Int} :
    ∀ {l : List (String × List (String × Int))} {x : String},
    x ∈ (subsInsert k v l).map Prod.fst → x = k ∨ x ∈ l.map Prod.fst := by
  intro l
  induction l with
  | nil =>
    intro x hx
    simp [subsInsert] at hx
    exact Or.inl hx
  | cons hd rest ih =>
    intro x hx
    obtain ⟨k', vs⟩ := hd
    rw [subsInsert] at hx
    by_cases h1 : strLt k k' = true
    · simp only [if_pos h1, List.map_cons, List.mem_cons] at hx
      rcases hx with h | h | h
      · exact Or.inl h
      · exact Or.inr (by simp [h])
      · exact Or.inr (by simp [h])
    · rw [if_neg h1] at hx
      by_cases h2 : strLt k' k = true
      · simp only [if_pos h2, List.map_cons, List.mem_cons] at hx
        rcases hx with h | h
        · exact Or.inr (by simp [h])
        · rcases ih h with h' | h'
          · exact Or.inl h'
          · exact Or.inr (by simp [h'])
      · simp only [if_neg h2, List.map_cons, List.mem_cons] at hx
        rcases hx with h | h
        · exact Or.inr (by simp [h])
        · exact Or.inr (by simp [h])

theorem subsInsert_keys_pairwise {k : String} {v : String × Int} :
    ∀ {l : List (String × List (String × Int))},
    (l.map Prod.fst).Pairwise (fun a b => strLt a b = true) →
    ((subsInsert k v l).map Prod.fst).Pairwise (fun a b => strLt a b = true) := by
  intro l
  induction l with
  | nil =>
    intro _
    simp [subsInsert]
  | cons hd rest ih =>
    intro hp
    obtain ⟨k', vs⟩ := hd
    simp only [List.map_cons, List.pairwise_cons] at hp
    obtain ⟨hk', hrest⟩ := hp
    rw [subsInsert]
    by_cases h1 : strLt k k' = true
    · rw [if_pos h1]
      simp only [List.map_cons, List.pairwise_cons]
      refine ⟨?_, hk', hrest⟩
      intro x hx
      simp only [List.mem_cons] at hx
      rcases hx with h | h
      · rw [h]; exact h1
      · exact strLt_trans h1 (hk' x h)
    · rw [if_neg h1]
      by_cases h2 : strLt k' k = true
      · rw [if_pos h2]
        simp only [List.map_cons, List.pairwise_cons]
        refine ⟨?_, ih hrest⟩
        intro x hx
        rcases subsInsert_keys_mem hx with h | h
        · rw [h]; exact h2
        · exact hk' x h
      · rw [if_neg h2]
        simp only [List.map_cons, List.pairwise_cons]
        exact ⟨hk', hrest⟩

theorem exportLoop_subs_pairwise :
    ∀ (rows : List (String × Nat)) (tops : List (String × BSONValue))
      (subs : List (String × List (String × Int))),
    (subs.map Prod.fst).Pairwise (fun a b => strLt a b = true) →
    (((exportLoop rows tops subs).2).map Prod.fst).Pairwise (fun a b => strLt a b = true) := by
  intro rows
  induction rows with
  | nil => intro tops subs h; exact h
  | cons row rest ih =>
    intro tops subs h
    obtain ⟨desc, value⟩ := row
    rw [exportLoop]
    by_cases hp : (statKeySplit desc.data).1.isEmpty = true
    · simp only [if_pos hp]
      exact ih _ _ h
    · simp only [if_neg hp]
      exact ih _ _ (subsInsert_keys_pairwise h)

theorem subDocKeys_append (a b : List (String × BSONValue)) :
    subDocKeys (a ++ b) = subDocKeys a ++ subDocKeys b := by
  simp [subDocKeys, List.filterMap_append]

theorem exportLoop_tops_no_doc :
    ∀ (rows : List (String × Nat)) (tops : List (String × BSONValue))
      (subs : List (String × List (String × Int))),
    subDocKeys tops = [] → subDocKeys (exportLoop rows tops subs).1 = [] := by
  intro rows
  induction rows with
  | nil => intro tops subs h; exact h
  | cons row rest ih =>
    intro tops subs h
    obtain ⟨desc, value⟩ := row
    rw [exportLoop]
    by_cases hp : (statKeySplit desc.data).1.isEmpty = true
    · simp only [if_pos hp]
      refine ih _ _ ?_
      rw [subDocKeys_append, h]
      rfl
    · simp only [if_neg hp]
      exact ih _ _ h

theorem subDocKeys_doc_map (subs : List (String × List (String × Int))) :
    subDocKeys (subs.map (fun p =>
      (p.1, BSONValue.doc (p.2.map (fun q => (q.1, BSONValue.int q.2)))))) =
      subs.map Prod.fst := by
  induction subs with
  | nil => rfl
  | cons hd rest ih => simp [subDocKeys, List.filterMap_cons] at ih ⊢; exact ih

theorem appMetaLoop_dup :
    ∀ (entries : List (String × WtConfigItem)) (seen : List String)
      (acc : List (String × BSONValue)),
    ((∃ k ∈ entries.map Prod.fst, k ∈ seen) ∨ ¬(entries.map Prod.fst).Nodup) →
    ∃ k, appMetaLoop entries seen acc =
        Except.error ⟨ErrorCodes.DuplicateKey, dupKeyMessage k⟩ ∧
      k ∈ entries.map Prod.fst ∧ (k ∈ seen ∨ 2 ≤ (entries.map Prod.fst).count k) := by
  intro entries
  induction entries with
  | nil =>
    intro seen acc h
    rcases h with ⟨k, hk, _⟩ | h
    · simp at hk
    · simp at h
  | cons e rest ih =>
    intro seen acc h
    obtain ⟨key, v⟩ := e
    by_cases hseen : key ∈ seen
    · refine ⟨key, ?_, by simp, Or.inl hseen⟩
      rw [appMetaLoop, if_pos hseen]
    · have hstep : (∃ k ∈ rest.map Prod.fst, k ∈ key :: seen) ∨ ¬(rest.map Prod.fst).Nodup := by
        rcases h with ⟨k, hk, hks⟩ | h
        · simp only [List.map_cons, List.mem_cons] at hk
          rcases hk with hk | hk
          · exact absurd (hk ▸ hks) hseen
          · exact Or.inl ⟨k, hk, List.mem_cons_of_mem _ hks⟩
        · simp only [List.map_cons, List.nodup_cons, not_and] at h
          by_cases hmem : key ∈ rest.map Prod.fst
          · exact Or.inl ⟨key, hmem, List.mem_cons_self _ _⟩
          · exact Or.inr (h hmem)
      obtain ⟨k, heq, hkmem, hcase⟩ := ih (key :: seen) (acc ++ [(key, coerceConfigValue v)]) hstep
      refine ⟨k, ?_, List.mem_cons_of_mem _ hkmem, ?_⟩
      · rw [appMetaLoop, if_neg hseen]
        exact heq
      · rcases hcase with hk | hk
        · rcases List.mem_cons.mp hk with hk' | hk'
          · refine Or.inr ?_
            subst hk'
            simp only [List.map_cons, List.count_cons_self]
            have : 1 ≤ (rest.map Prod.fst).count k := List.count_pos_iff.mpr hkmem
            omega
          · exact Or.inl hk'
        · refine Or.inr ?_
          simp only [List.map_cons, List.count_cons]
          split <;> omega

/-! ## The claims -/

/-- C3: for every context prefix (and every engine error-text function), the
status translator applied to the conflict-sentinel code `WT_ROLLBACK` never
returns a `Status` value — it escapes through the distinct WriteConflict
signal — and applied to code 0 it returns `Status::OK()`. -/
theorem wtRCToStatus_slow_conflict_and_success (strerror : Int → String) (pfx : Option String) :
    wtRCToStatus_slow strerror WT_ROLLBACK pfx = TranslateOutcome.writeConflict ∧
    (wtRCToStatus_slow strerror WT_ROLLBACK pfx).isRet = false ∧
    wtRCToStatus_slow strerror 0 pfx = TranslateOutcome.ret Status.OK :=
  ⟨rfl, rfl, rfl⟩

/-- C8 (amended): `getStatisticsValue` returns `Err(CursorNotFound)` with the
URI and the engine's error text embedded when the cursor open fails;
`Err(NoSuchKey)` when the open succeeds but the seek fails; `Err(BadValue)`
when open and seek succeed but reading the value fails; and `Ok` with the
counter only when all three engine calls succeed. -/
theorem getStatisticsValue_cases (e : StatEnv) :
    (e.resp.openRet ≠ 0 → (getStatisticsValue e).1 =
      Except.error ⟨ErrorCodes.CursorNotFound,
        "unable to open cursor at URI " ++ e.uri ++ ". reason: " ++
          e.resp.strerror e.resp.openRet⟩) ∧
    (e.resp.openRet = 0 → e.resp.searchRet ≠ 0 → (getStatisticsValue e).1 =
      Except.error ⟨ErrorCodes.NoSuchKey,
        "unable to find key " ++ toString e.statisticsKey ++ " at URI " ++ e.uri ++
          ". reason: " ++ e.resp.strerror e.resp.searchRet⟩) ∧
    (e.resp.openRet = 0 → e.resp.searchRet = 0 → e.resp.getValueRet ≠ 0 →
      (getStatisticsValue e).1 = Except.error ⟨ErrorCodes.BadValue,
        "unable to get value for key " ++ toString e.statisticsKey ++ " at URI " ++ e.uri ++
          ". reason: " ++ e.resp.strerror e.resp.getValueRet⟩) ∧
    (e.resp.openRet = 0 → e.resp.searchRet = 0 → e.resp.getValueRet = 0 →
      (getStatisticsValue e).1 = Except.ok e.resp.value) := by
  refine ⟨?_, ?_, ?_, ?_⟩ <;> intros <;> simp [getStatisticsValue, *]

theorem getStatisticsValue_cases_witness :
    (getStatisticsValue ⟨"statistics:table:w", "statistics=(fast)", 5,
      ⟨0, 0, 0, 9, fun _ => "e"⟩⟩).1 = Except.ok 9 :=
  (getStatisticsValue_cases ⟨"statistics:table:w", "statistics=(fast)", 5,
    ⟨0, 0, 0, 9, fun _ => "e"⟩⟩).2.2.2 rfl rfl rfl

/-- C8: counterexample to the claim as stated — at an input where the cursor
open and the seek both succeed but the value read fails, `getStatisticsValue`
does not return `Ok` with the counter; it returns `Err(BadValue)`. -/
theorem getStatisticsValue_read_failure_counterexample :
    ((⟨"u", "", 5, ⟨0, 0, 22, 9, fun _ => "e"⟩⟩ : StatEnv).resp.openRet = 0) ∧
    ((⟨"u", "", 5, ⟨0, 0, 22, 9, fun _ => "e"⟩⟩ : StatEnv).resp.searchRet = 0) ∧
    (getStatisticsValue ⟨"u", "", 5, ⟨0, 0, 22, 9, fun _ => "e"⟩⟩).1 =
      Except.error ⟨ErrorCodes.BadValue,
        "unable to get value for key 5 at URI u. reason: e"⟩ :=
  ⟨rfl, rfl, rfl⟩

/-- C7: whenever the underlying statistics lookup of `getIdentSize` fails,
`getIdentSize` returns 0 if the failure is `CursorNotFound`, and for any other
failure it does not return a value: it escapes through the `uassertStatusOK`
assertion failure. -/
theorem getIdentSize_error_handling (uri : String) (r : CursorResponses) (st : Status)
    (h : getStatisticsValueAs_int64 ⟨"statistics:" ++ uri, "statistics=(fast)",
        WT_STAT_DSRC_BLOCK_SIZE, r⟩ = Except.error st) :
    (st.code = ErrorCodes.CursorNotFound → getIdentSize uri r = IdentSizeOutcome.ret 0) ∧
    (st.code ≠ ErrorCodes.CursorNotFound →
      getIdentSize uri r = IdentSizeOutcome.assertionFailed st) := by
  constructor <;> intro hc <;> simp [getIdentSize, h, hc]

theorem getIdentSize_error_handling_witness :
    getIdentSize "table:w" ⟨WT_NOTFOUND, 0, 0, 0, fun _ => "x"⟩ = IdentSizeOutcome.ret 0 :=
  (getIdentSize_error_handling "table:w" ⟨WT_NOTFOUND, 0, 0, 0, fun _ => "x"⟩
    ⟨ErrorCodes.CursorNotFound,
      "unable to open cursor at URI statistics:table:w. reason: x"⟩ rfl).1 rfl

/-- C9: every cursor opened internally (metadata fetch, statistics value
lookup, statistics export) is closed on every exit path of the operation that
opened it, including every error return; the only run that does not balance
its cursor events is a `fassert` abort of the metadata fetch, which stops the
process and does not return at all. -/
theorem cursors_closed_on_all_paths (se : StatEnv) (ee : ExportEnv) (me : MetaEnv) :
    closesAllCursors (getStatisticsValue se).2 ∧
    closesAllCursors (exportTableToBSON ee).2 ∧
    ((getMetadata me).1.isFassert = false → closesAllCursors (getMetadata me).2) := by
  refine ⟨?_, ?_, ?_⟩
  · unfold getStatisticsValue
    split
    · rfl
    · split
      · rfl
      · split <;> rfl
  · unfold exportTableToBSON
    split
    · rfl
    · rfl
  · unfold getMetadata
    split
    · intro _; rfl
    · split
      · split <;> intro h
        · rfl
        · rfl
        · exact absurd h (by simp [WtResult.isFassert])
      · split
        · split <;> intro h
          · rfl
          · rfl
          · exact absurd h (by simp [WtResult.isFassert])
        · intro _; rfl

theorem cursors_closed_on_all_paths_witness :
    closesAllCursors (getStatisticsValue ⟨"u", "", 1, ⟨0, 0, 0, 4, fun _ => "e"⟩⟩).2 ∧
    closesAllCursors (exportTableToBSON ⟨"t", 0, [("a:b", 1)], fun _ => "e"⟩).2 ∧
    closesAllCursors (getMetadata ⟨"m", 0, 0, "app_metadata=()", fun _ => "e"⟩).2 :=
  ⟨(cursors_closed_on_all_paths ⟨"u", "", 1, ⟨0, 0, 0, 4, fun _ => "e"⟩⟩
      ⟨"t", 0, [("a:b", 1)], fun _ => "e"⟩ ⟨"m", 0, 0, "app_metadata=()", fun _ => "e"⟩).1,
   (cursors_closed_on_all_paths ⟨"u", "", 1, ⟨0, 0, 0, 4, fun _ => "e"⟩⟩
      ⟨"t", 0, [("a:b", 1)], fun _ => "e"⟩ ⟨"m", 0, 0, "app_metadata=()", fun _ => "e"⟩).2.1,
   (cursors_closed_on_all_paths ⟨"u", "", 1, ⟨0, 0, 0, 4, fun _ => "e"⟩⟩
      ⟨"t", 0, [("a:b", 1)], fun _ => "e"⟩ ⟨"m", 0, 0, "app_metadata=()", fun _ => "e"⟩).2.2 rfl⟩

/-- C1: evaluation of the code at the failing input.  The metadata string's
top level (here one unrelated key) has no "app_metadata" key, so per the claim
the call must return success with an empty document; but because line 109's
`Status::OK();` discards its value instead of being returned, control falls
through and reads the uninitialized `WT_CONFIG_ITEM appMetadata` — with
indeterminate stack contents of nonzero length and non-struct type (here a
string item reading "garbage") the call returns a `FailedToParse` error
instead. -/
theorem getApplicationMetadata_missing_key_falls_through :
    getApplicationMetadata (fun _ => "")
      ⟨"garbage", 0, WtItemType.ITEM_STRING, [], WT_NOTFOUND⟩
      (WtResult.ok [("access_pattern_hint",
        ⟨"none", 0, WtItemType.ITEM_ID, [], WT_NOTFOUND⟩)]) =
    WtResult.err ⟨ErrorCodes.FailedToParse,
      "app_metadata must be a nested struct. Actual value: garbage"⟩ := rfl

/-- C10: for every fetched metadata string whose top-level "app_metadata"
entry is present but has a zero-length payload, `getApplicationMetadata`
returns success with an empty document (no keys appended), whatever the
indeterminate initial contents of the local item are: the `len == 0` check
comes before the struct-type check, so an empty app_metadata never produces
`FailedToParse`. -/
theorem getApplicationMetadata_empty_appMetadata (strerror : Int → String)
    (junk : WtStructItem) (top : TopCfg) (it : WtStructItem)
    (hget : cfgGetTop top "app_metadata" = some it) (hlen : it.str.length = 0) :
    getApplicationMetadata strerror junk (WtResult.ok top) = WtResult.ok [] := by
  simp [getApplicationMetadata, hget, hlen]

theorem getApplicationMetadata_empty_appMetadata_witness :
    getApplicationMetadata (fun _ => "") ⟨"x", 0, WtItemType.ITEM_STRING, [], 0⟩
      (WtResult.ok [("app_metadata", ⟨"", 0, WtItemType.ITEM_STRUCT, [], WT_NOTFOUND⟩)]) =
      WtResult.ok [] :=
  getApplicationMetadata_empty_appMetadata (fun _ => "")
    ⟨"x", 0, WtItemType.ITEM_STRING, [], 0⟩
    [("app_metadata", ⟨"", 0, WtItemType.ITEM_STRUCT, [], WT_NOTFOUND⟩)]
    ⟨"", 0, WtItemType.ITEM_STRUCT, [], WT_NOTFOUND⟩ rfl rfl

/-- C5: for every fetched metadata string whose "app_metadata" struct contains
some key more than once, `getApplicationMetadata` fails with `DuplicateKey`
naming a key that indeed occurs at least twice, regardless of the value types
involved; the duplicate is never silently overwritten. -/
theorem getApplicationMetadata_duplicate_keys (strerror : Int → String)
    (junk : WtStructItem) (top : TopCfg) (it : WtStructItem)
    (hget : cfgGetTop top "app_metadata" = some it)
    (hty : it.itype = WtItemType.ITEM_STRUCT)
    (hlen : it.str.length ≠ 0)
    (hdup : ¬(it.entries.map Prod.fst).Nodup) :
    ∃ k, getApplicationMetadata strerror junk (WtResult.ok top) =
        WtResult.err ⟨ErrorCodes.DuplicateKey, dupKeyMessage k⟩ ∧
      2 ≤ (it.entries.map Prod.fst).count k := by
  obtain ⟨k, heq, _, hcase⟩ := appMetaLoop_dup it.entries [] [] (Or.inr hdup)
  refine ⟨k, ?_, ?_⟩
  · simp [getApplicationMetadata, hget, hlen, hty, heq]
  · rcases hcase with h | h
    · simp at h
    · exact h

theorem getApplicationMetadata_duplicate_keys_witness :
    ∃ k, getApplicationMetadata (fun _ => "")
        ⟨"x", 0, WtItemType.ITEM_STRING, [], 0⟩
        (WtResult.ok [("app_metadata",
          ⟨"(dup=true,other=7,dup=v)", 0, WtItemType.ITEM_STRUCT,
            [("dup", ⟨"true", 1, WtItemType.ITEM_BOOL⟩),
             ("other", ⟨"7", 7, WtItemType.ITEM_NUM⟩),
             ("dup", ⟨"v", 0, WtItemType.ITEM_STRING⟩)], WT_NOTFOUND⟩)]) =
        WtResult.err ⟨ErrorCodes.DuplicateKey, dupKeyMessage k⟩ ∧
      2 ≤ (([("dup", (⟨"true", 1, WtItemType.ITEM_BOOL⟩ : WtConfigItem)),
             ("other", ⟨"7", 7, WtItemType.ITEM_NUM⟩),
             ("dup", ⟨"v", 0, WtItemType.ITEM_STRING⟩)].map Prod.fst).count k) :=
  getApplicationMetadata_duplicate_keys (fun _ => "")
    ⟨"x", 0, WtItemType.ITEM_STRING, [], 0⟩
    [("app_metadata",
      ⟨"(dup=true,other=7,dup=v)", 0, WtItemType.ITEM_STRUCT,
        [("dup", ⟨"true", 1, WtItemType.ITEM_BOOL⟩),
         ("other", ⟨"7", 7, WtItemType.ITEM_NUM⟩),
         ("dup", ⟨"v", 0, WtItemType.ITEM_STRING⟩)], WT_NOTFOUND⟩)]
    ⟨"(dup=true,other=7,dup=v)", 0, WtItemType.ITEM_STRUCT,
      [("dup", ⟨"true", 1, WtItemType.ITEM_BOOL⟩),
       ("other", ⟨"7", 7, WtItemType.ITEM_NUM⟩),
       ("dup", ⟨"v", 0, WtItemType.ITEM_STRING⟩)], WT_NOTFOUND⟩
    rfl rfl (by decide) (by decide)

/-- C4: for every fetched metadata string containing an "app_metadata" struct,
`checkApplicationMetadataFormatVersion` succeeds exactly when the effective
version v — the value of a Number-typed "formatVersion" entry if present,
1 if absent — satisfies minVersion ≤ v ≤ maxVersion; an out-of-range version
fails with `UnsupportedFormat`, and a present non-Number "formatVersion"
(effective version undefined) also fails with `UnsupportedFormat`. -/
theorem checkApplicationMetadataFormatVersion_range (uri : String) (top : TopCfg)
    (md : WtStructItem) (minV maxV : Int)
    (hget : cfgGetTop top "app_metadata" = some md)
    (hty : md.itype = WtItemType.ITEM_STRUCT) :
    (∀ v : Int, effectiveFormatVersion md = some v →
      ((checkApplicationMetadataFormatVersion uri (WtResult.ok top) minV maxV =
          WtResult.ok ()) ↔ (minV ≤ v ∧ v ≤ maxV)) ∧
      (¬(minV ≤ v ∧ v ≤ maxV) →
        ∃ m, checkApplicationMetadataFormatVersion uri (WtResult.ok top) minV maxV =
          WtResult.err ⟨ErrorCodes.UnsupportedFormat, m⟩)) ∧
    (effectiveFormatVersion md = none →
      ∃ m, checkApplicationMetadataFormatVersion uri (WtResult.ok top) minV maxV =
        WtResult.err ⟨ErrorCodes.UnsupportedFormat, m⟩) := by
  have hmain : ∀ v : Int, effectiveFormatVersion md = some v →
      checkApplicationMetadataFormatVersion uri (WtResult.ok top) minV maxV =
        (if v < minV ∨ v > maxV then
          WtResult.err ⟨ErrorCodes.UnsupportedFormat,
            "Application metadata for " ++ uri ++ " has unsupported format version " ++
              toString v⟩
        else WtResult.ok ()) := by
    intro v hv
    cases hfv : cfgGet md.entries "formatVersion" with
    | none =>
      simp only [effectiveFormatVersion, hfv, Option.some.injEq] at hv
      subst hv
      simp [checkApplicationMetadataFormatVersion, hget, hfv]
    | some vi =>
      simp only [effectiveFormatVersion, hfv] at hv
      by_cases hnum : vi.itype = WtItemType.ITEM_NUM
      · rw [if_pos hnum, Option.some.injEq] at hv
        subst hv
        simp [checkApplicationMetadataFormatVersion, hget, hfv, hnum]
      · rw [if_neg hnum] at hv
        exact absurd hv (by simp)
  constructor
  · intro v hv
    constructor
    · rw [hmain v hv]
      by_cases hr : v < minV ∨ v > maxV
      · rw [if_pos hr]
        constructor
        · intro h
          exact absurd h (by simp)
        · intro h
          exact absurd hr (by omega)
      · rw [if_neg hr]
        constructor
        · intro _
          omega
        · intro _
          rfl
    · intro hr
      rw [hmain v hv, if_pos (by omega)]
      exact ⟨_, rfl⟩
  · intro hnone
    cases hfv : cfgGet md.entries "formatVersion" with
    | none => simp [effectiveFormatVersion, hfv] at hnone
    | some vi =>
      simp only [effectiveFormatVersion, hfv] at hnone
      by_cases hnum : vi.itype = WtItemType.ITEM_NUM
      · rw [if_pos hnum] at hnone
        exact absurd hnone (by simp)
      · exact ⟨"'formatVersion' in application metadata for " ++ uri ++
            " must be a number. Current value: " ++ vi.str, by
          simp [checkApplicationMetadataFormatVersion, hget, hfv, hnum]⟩

theorem checkApplicationMetadataFormatVersion_range_witness :
    checkApplicationMetadataFormatVersion "table:w"
      (WtResult.ok [("app_metadata",
        ⟨"(formatVersion=2)", 0, WtItemType.ITEM_STRUCT,
          [("formatVersion", ⟨"2", 2, WtItemType.ITEM_NUM⟩)], WT_NOTFOUND⟩)]) 2 3 =
      WtResult.ok () :=
  ((checkApplicationMetadataFormatVersion_range "table:w"
      [("app_metadata",
        ⟨"(formatVersion=2)", 0, WtItemType.ITEM_STRUCT,
          [("formatVersion", ⟨"2", 2, WtItemType.ITEM_NUM⟩)], WT_NOTFOUND⟩)]
      ⟨"(formatVersion=2)", 0, WtItemType.ITEM_STRUCT,
        [("formatVersion", ⟨"2", 2, WtItemType.ITEM_NUM⟩)], WT_NOTFOUND⟩
      2 3 rfl rfl).1 2 rfl).1.mpr (by decide)

/-- C2: counterexample to the claim as stated.  In the row stream the
prefixes first appear in the order b, a; the produced document lists the
per-prefix sub-documents in the order a, b (the `std::map`'s sorted key
order), not in the first-appearance order b, a. -/
theorem exportTableToBSON_first_seen_counterexample :
    (exportTableToBSON ⟨"table:t", 0, [("b:x", 1), ("a:y", 2)], fun _ => ""⟩).1 =
      Except.ok [("uri", BSONValue.str "table:t"),
        ("a", BSONValue.doc [("y", BSONValue.int 2)]),
        ("b", BSONValue.doc [("x", BSONValue.int 1)])] ∧
    subDocKeys [("uri", BSONValue.str "table:t"),
        ("a", BSONValue.doc [("y", BSONValue.int 2)]),
        ("b", BSONValue.doc [("x", BSONValue.int 1)])] = ["a", "b"] ∧
    (["a", "b"] : List String) ≠ ["b", "a"] :=
  ⟨rfl, rfl, by decide⟩

/-- C2 (amended): in the statistics document produced by `exportTableToBSON`,
the per-prefix sub-documents appear in lexicographically sorted order of
prefix — the iteration order of the `std::map` that collects them — not in
the order in which each prefix first appears in the row stream. -/
theorem exportTableToBSON_subdoc_keys_sorted (e : ExportEnv)
    (fs : List (String × BSONValue))
    (h : (exportTableToBSON e).1 = Except.ok fs) :
    (subDocKeys fs).Pairwise (fun a b => strLt a b = true) := by
  unfold exportTableToBSON at h
  by_cases ho : e.openRet ≠ 0
  · rw [if_pos ho] at h
    exact absurd h (by simp)
  · rw [if_neg ho] at h
    simp only [Except.ok.injEq] at h
    subst h
    rw [show ∀ (x : String × BSONValue) (a b : List (String × BSONValue)),
        x :: a ++ b = [x] ++ a ++ b from fun _ _ _ => rfl]
    rw [subDocKeys_append, subDocKeys_append]
    rw [show subDocKeys [("uri", BSONValue.str e.uri)] = [] from rfl]
    rw [exportLoop_tops_no_doc e.rows [] [] rfl]
    rw [subDocKeys_doc_map]
    simp only [List.nil_append]
    exact exportLoop_subs_pairwise e.rows [] [] (by simp)

theorem exportTableToBSON_subdoc_keys_sorted_witness :
    (subDocKeys [("uri", BSONValue.str "table:t"),
        ("a", BSONValue.doc [("y", BSONValue.int 2)]),
        ("b", BSONValue.doc [("x", BSONValue.int 1)])]).Pairwise
      (fun a b => strLt a b = true) :=
  exportTableToBSON_subdoc_keys_sorted ⟨"table:t", 0, [("b:x", 1), ("a:y", 2)], fun _ => ""⟩
    [("uri", BSONValue.str "table:t"),
     ("a", BSONValue.doc [("y", BSONValue.int 2)]),
     ("b", BSONValue.doc [("x", BSONValue.int 1)])] rfl

/-- C6: the grouping key of a statistics row is derived from its description
as the text before/after the first ':'; else before/after the first ' ';
else the whole description with the literal suffix "num" — and, through the
whole export, description "cache:pages read" with value 42 yields
document["cache"]["pages read"] = 42 while description "objects" yields
document["objects"]["num"] = value. -/
theorem exportTableToBSON_key_derivation :
    (∀ p s : List Char, ':' ∉ p → statKeySplit (p ++ ':' :: s) = (p, s)) ∧
    (∀ p s : List Char, ':' ∉ p → ':' ∉ s → ' ' ∉ p →
      statKeySplit (p ++ ' ' :: s) = (p, s)) ∧
    (∀ key : List Char, ':' ∉ key → ' ' ∉ key → statKeySplit key = (key, "num".data)) ∧
    (exportTableToBSON ⟨"table:t", 0, [("cache:pages read", 42)], fun _ => ""⟩).1 =
      Except.ok [("uri", BSONValue.str "table:t"),
        ("cache", BSONValue.doc [("pages read", BSONValue.int 42)])] ∧
    (exportTableToBSON ⟨"table:t", 0, [("objects", 7)], fun _ => ""⟩).1 =
      Except.ok [("uri", BSONValue.str "table:t"),
        ("objects", BSONValue.doc [("num", BSONValue.int 7)])] := by
  refine ⟨?_, ?_, ?_, rfl, rfl⟩
  · intro p s hp
    rw [statKeySplit, splitAtFirst_append s hp]
  · intro p s hp hs hp'
    have hcolon : ':' ∉ p ++ ' ' :: s := by
      simp only [List.mem_append, List.mem_cons, not_or]
      exact ⟨hp, by decide, hs⟩
    rw [statKeySplit, splitAtFirst_of_not_mem hcolon, splitAtFirst_append s hp']
  · intro key hc hsp
    rw [statKeySplit, splitAtFirst_of_not_mem hc, splitAtFirst_of_not_mem hsp]

theorem exportTableToBSON_key_derivation_witness :
    statKeySplit ("cache".data ++ ':' :: "pages read".data) = ("cache".data, "pages read".data) ∧
    statKeySplit ("bytes".data ++ ' ' :: "written".data) = ("bytes".data, "written".data) ∧
    statKeySplit "objects".data = ("objects".data, "num".data) :=
  ⟨exportTableToBSON_key_derivation.1 "cache".data "pages read".data (by decide),
   exportTableToBSON_key_derivation.2.1 "bytes".data "written".data
     (by decide) (by decide) (by decide),
   exportTableToBSON_key_derivation.2.2.1 "objects".data (by decide) (by decide)⟩
